import Mathlib

/-
  Shallow embedding of the seaf-fuse translation/dispatch core
  (src/fuse/seaf-fuse.c): path parsing, read-only enforcement, and the
  VFS operations getattr / readdir / open / read over abstract external
  stores (repository registry, commit store, fs/object store).

  C strings are modelled as `List Char`; `g_strndup(p, n)` is `List.take n`,
  `strchr(p, c)` is the index of the first occurrence, `strlen` is
  `List.length`.  Reference-counted handles and heap strings are tracked
  by an explicit acquired/released trace in `open` and `read`, mirroring
  the acquisition points and the `g_free`/`unref` calls of the C code
  line by line.
-/

/-- errno value ENOENT (no such file or directory); the C returns `-ENOENT`. -/
def ENOENT : Int := 2

/-- errno value EACCES (permission denied); the C returns `-EACCES`. -/
def EACCES : Int := 13

/-- O_RDONLY access mode value (0 on POSIX). -/
def O_RDONLY : Nat := 0

/-- `S_ISREG(m)`: the file-type bits (mask 0o170000 = 61440) equal
S_IFREG (0o100000 = 32768). -/
def S_ISREG (m : Nat) : Bool := m &&& 61440 == 32768

/-- The `if (*path == '/') ++path;` step at the top of `parse_fuse_path`
(seaf-fuse.c:29-30): strip one leading separator if present. -/
def stripLead (path : List Char) : List Char :=
  if path.head? = some '/' then path.tail else path

/-- `strchr(path, '/')` as the index of the first `'/'`, `none` when absent. -/
def strchr : List Char → Option Nat
  | [] => none
  | c :: rest => if c = '/' then some 0 else (strchr rest).map (· + 1)

/-- `parse_fuse_path` (seaf-fuse.c:25-54): strip one leading `/`; locate the
first `/` in the remainder.  Without one, the remainder must be ≥ 36 chars,
the first 36 become the repo id and the repo path is `"/"`.  With one at
index `i`, `i` must be ≥ 36, the first 36 chars become the repo id and
everything after that `/` (verbatim) is the repo path.  `none` models the
`return -1` parse-error paths. -/
def parse_fuse_path (path : List Char) : Option (List Char × List Char) :=
  let p1 := stripLead path
  match strchr p1 with
  | none =>
    if p1.length < 36 then none
    else some (p1.take 36, ['/'])
  | some i =>
    if i < 36 then none
    else some (p1.take 36, p1.drop (i + 1))

/-- A branch (`SeafBranch`): carries the id of the commit it points to. -/
structure SeafBranch where
  commit_id : List Char
deriving DecidableEq, Repr

/-- A repository registry entry (`SeafRepo`): carries its head branch. -/
structure SeafRepo where
  head : SeafBranch
deriving DecidableEq, Repr

/-- A commit (`SeafCommit`): carries the id of its root fs object. -/
structure SeafCommit where
  root_id : List Char
deriving DecidableEq, Repr

/-- A file-content handle (`Seafile`): carries the file size used for stat. -/
structure Seafile where
  file_size : Nat
deriving DecidableEq, Repr

/-- The FUSE `struct fuse_file_info` fields this layer can see: the open
flags and the (never written) file-handle field `fh`. -/
structure FileInfo where
  flags : Nat
  fh : Nat
deriving DecidableEq, Repr

/-- The `struct stat` fields this layer populates (after `memset` to 0). -/
structure Stat where
  st_mode : Nat
  st_size : Nat
deriving DecidableEq, Repr

/-- The per-call resources of §3's lifetime discipline: the two heap strings
produced by `parse_fuse_path`, the two reference-counted handles, the
transient object/file-id strings and the file-content handle. -/
inductive Resource where
  | repoId
  | repoPath
  | repoHandle
  | commitHandle
  | objId
  | fileId
  | fileHandle
deriving DecidableEq, Repr

/-- The external collaborators reached through the global `seaf` session:
repository registry (as an association list, so the root listing can
enumerate it), commit store, fs/object store primitives, and the session's
other fields (client pool, etc.) that the VFS operations never touch,
represented by `client_pool`. -/
structure SeafState where
  repos : List (List Char × SeafRepo)
  commit_mgr : List Char → Option SeafCommit
  fs_path_to_obj : List Char → List Char → Option (List Char × Nat)
  fs_file_id_by_path : List Char → List Char → Option (List Char)
  fs_get_file : List Char → Option Seafile
  read_bytes : Seafile → Nat → Int → Int
  fs_dir_entries : List Char → List Char → Option (List (List Char))
  client_pool : Nat

/-- `seaf_repo_manager_get_repo`: look the repository up by id in the
registry. -/
def seaf_repo_manager_get_repo (s : SeafState) (repo_id : List Char) :
    Option SeafRepo :=
  (s.repos.find? (fun e => e.1 == repo_id)).map (fun e => e.2)

/-- Result of `open`: the returned errno/0, the trace of resources acquired
and of resources released during the call, and the (in/out) file-info
structure as it is when the call returns. -/
structure OpenOut where
  ret : Int
  acquired : List Resource
  released : List Resource
  info_out : FileInfo
deriving DecidableEq, Repr

/-- Result of `read`: the returned byte count or negative errno, and the
acquired/released resource traces. -/
structure ReadOut where
  ret : Int
  acquired : List Resource
  released : List Resource
deriving DecidableEq, Repr

/-- Body of `seaf_fuse_open` (seaf-fuse.c:84-133).  Each branch records, in
program order, the resources acquired before it and the `g_free`/`unref`
calls it executes (`g_free(NULL)` / `unref(NULL)` release nothing).  Note
the `!S_ISREG(mode)` branch (line 124-125) returns `-EACCES` directly,
without passing through the `out:` label, after having freed only the
object-id string (line 122). -/
def open_core (s : SeafState) (path : List Char) (info : FileInfo) :
    Int × List Resource × List Resource :=
  if info.flags &&& 3 ≠ O_RDONLY then (-EACCES, [], [])
  else
    match parse_fuse_path path with
    | none => (-ENOENT, [], [])
    | some (repo_id, repo_path) =>
      match seaf_repo_manager_get_repo s repo_id with
      | none =>
        (-ENOENT, [.repoId, .repoPath], [.repoId, .repoPath])
      | some repo =>
        match s.commit_mgr repo.head.commit_id with
        | none =>
          (-ENOENT, [.repoId, .repoPath, .repoHandle],
            [.repoId, .repoPath, .repoHandle])
        | some commit =>
          match s.fs_path_to_obj commit.root_id repo_path with
          | none =>
            (-ENOENT, [.repoId, .repoPath, .repoHandle, .commitHandle],
              [.repoId, .repoPath, .repoHandle, .commitHandle])
          | some (_, mode) =>
            if S_ISREG mode then
              (0, [.repoId, .repoPath, .repoHandle, .commitHandle, .objId],
                [.objId, .repoId, .repoPath, .repoHandle, .commitHandle])
            else
              (-EACCES,
                [.repoId, .repoPath, .repoHandle, .commitHandle, .objId],
                [.objId])

/-- `seaf_fuse_open` (seaf-fuse.c:84-133).  The `info` structure is FUSE's
in/out parameter; the function body never writes to it, so it comes back
as it went in. -/
def seaf_fuse_open (s : SeafState) (path : List Char) (info : FileInfo) :
    OpenOut :=
  ⟨(open_core s path info).1, (open_core s path info).2.1,
    (open_core s path info).2.2, info⟩

/-- `seaf_fuse_read` (seaf-fuse.c:135-191).  All post-parse failure paths go
through the `out:` label, which frees `repo_id`, `repo_path`, `file_id` and
unrefs `repo` and `commit` (the `Seafile` handle is never unreffed).  The
byte production is delegated to the external chunked-read primitive.
Modelled from the spec: `read_file` (fuse/file.c, not in src) is the
collaborator `read_bytes(FileHandle, buffer, size, offset) -> bytes_read`
of §6, honouring `offset` and returning `min(size, available)`. -/
def seaf_fuse_read (s : SeafState) (path : List Char) (size : Nat)
    (offset : Int) (info : FileInfo) : ReadOut :=
  if info.flags &&& 3 ≠ O_RDONLY then ⟨-EACCES, [], []⟩
  else
    match parse_fuse_path path with
    | none => ⟨-ENOENT, [], []⟩
    | some (repo_id, repo_path) =>
      match seaf_repo_manager_get_repo s repo_id with
      | none =>
        ⟨-ENOENT, [.repoId, .repoPath], [.repoId, .repoPath]⟩
      | some repo =>
        match s.commit_mgr repo.head.commit_id with
        | none =>
          ⟨-ENOENT, [.repoId, .repoPath, .repoHandle],
            [.repoId, .repoPath, .repoHandle]⟩
        | some commit =>
          match s.fs_file_id_by_path commit.root_id repo_path with
          | none =>
            ⟨-ENOENT, [.repoId, .repoPath, .repoHandle, .commitHandle],
              [.repoId, .repoPath, .repoHandle, .commitHandle]⟩
          | some file_id =>
            match s.fs_get_file file_id with
            | none =>
              ⟨-ENOENT,
                [.repoId, .repoPath, .repoHandle, .commitHandle, .fileId],
                [.repoId, .repoPath, .fileId, .repoHandle, .commitHandle]⟩
            | some file =>
              ⟨s.read_bytes file size offset,
                [.repoId, .repoPath, .repoHandle, .commitHandle, .fileId,
                  .fileHandle],
                [.repoId, .repoPath, .fileId, .repoHandle, .commitHandle]⟩

/-- All stat fields zero (`memset(stbuf, 0, sizeof(struct stat))`). -/
def stat0 : Stat := ⟨0, 0⟩

/-- Modelled from the spec: `getattr_root` (fuse/getattr.c, not in src) —
the mount root's metadata provider of §4.5: always reports a directory
(mode 0o40755). -/
def getattr_root (_s : SeafState) : Int × Stat :=
  (0, ⟨16877, 0⟩)

/-- Modelled from the spec: `getattr_repo` (fuse/getattr.c, not in src) —
§4.4 getattr pipeline: resolve → locate → walk, then populate the stat from
the resolved mode and, for regular files, the size obtained from the file
object; `NotFound` when any pipeline stage fails. -/
def getattr_repo (s : SeafState) (path : List Char) : Int × Stat :=
  match parse_fuse_path path with
  | none => (-ENOENT, stat0)
  | some (repo_id, repo_path) =>
    match seaf_repo_manager_get_repo s repo_id with
    | none => (-ENOENT, stat0)
    | some repo =>
      match s.commit_mgr repo.head.commit_id with
      | none => (-ENOENT, stat0)
      | some commit =>
        match s.fs_path_to_obj commit.root_id repo_path with
        | none => (-ENOENT, stat0)
        | some (obj_id, mode) =>
          if S_ISREG mode then
            match s.fs_get_file obj_id with
            | none => (-ENOENT, stat0)
            | some file => (0, ⟨mode, file.file_size⟩)
          else (0, ⟨mode, 0⟩)

/-- `seaf_fuse_getattr` (seaf-fuse.c:56-66): zero the stat buffer, then
special-case the mount root, else hand `path+1` to the repo-path variant. -/
def seaf_fuse_getattr (s : SeafState) (path : List Char) : Int × Stat :=
  if path = ['/'] then getattr_root s
  else getattr_repo s (path.drop 1)

/-- Modelled from the spec: `readdir_root` (fuse/readdir.c, not in src) —
Root Listing of §4.5: one entry per repository known to the registry, named
by its identifier token. -/
def readdir_root (s : SeafState) : Int × List (List Char) :=
  (0, s.repos.map (fun e => e.1))

/-- Modelled from the spec: `readdir_repo` (fuse/readdir.c, not in src) —
§4.4 readdir pipeline: resolve → locate, then enumerate the directory
object at the resolved in-repository path, one entry per child; `NotFound`
when the path does not resolve to a directory. -/
def readdir_repo (s : SeafState) (path : List Char) : Int × List (List Char) :=
  match parse_fuse_path path with
  | none => (-ENOENT, [])
  | some (repo_id, repo_path) =>
    match seaf_repo_manager_get_repo s repo_id with
    | none => (-ENOENT, [])
    | some repo =>
      match s.commit_mgr repo.head.commit_id with
      | none => (-ENOENT, [])
      | some commit =>
        match s.fs_dir_entries commit.root_id repo_path with
        | none => (-ENOENT, [])
        | some entries => (0, entries)

/-- `seaf_fuse_readdir` (seaf-fuse.c:68-82): `filler` is modelled by the
returned list of emitted names; `.` and `..` are emitted before the
dispatch on root vs repository path. -/
def seaf_fuse_readdir (s : SeafState) (path : List Char) :
    Int × List (List Char) :=
  if path = ['/'] then
    ((readdir_root s).1, [['.'], ['.', '.']] ++ (readdir_root s).2)
  else
    ((readdir_repo s (path.drop 1)).1,
      [['.'], ['.', '.']] ++ (readdir_repo s (path.drop 1)).2)

/-- The external stores of the two states coincide: registry, commit store
and all object-store primitives (everything except the session fields the
VFS operations never touch). -/
def storesEq (s1 s2 : SeafState) : Prop :=
  s1.repos = s2.repos ∧
  s1.commit_mgr = s2.commit_mgr ∧
  s1.fs_path_to_obj = s2.fs_path_to_obj ∧
  s1.fs_file_id_by_path = s2.fs_file_id_by_path ∧
  s1.fs_get_file = s2.fs_get_file ∧
  s1.read_bytes = s2.read_bytes ∧
  s1.fs_dir_entries = s2.fs_dir_entries

/-- A 36-character identifier made of `'a'`s, for concrete evaluation. -/
def id36 : List Char := List.replicate 36 'a'

/-- A state with empty registry and empty stores. -/
def stEmpty : SeafState where
  repos := []
  commit_mgr := fun _ => none
  fs_path_to_obj := fun _ _ => none
  fs_file_id_by_path := fun _ _ => none
  fs_get_file := fun _ => none
  read_bytes := fun _ _ _ => 0
  fs_dir_entries := fun _ _ => none
  client_pool := 0

/-- A state in which repository `id36` exists, its head commit is present,
and every in-repository path resolves to a directory (mode 0o40755). -/
def stDir : SeafState where
  repos := [(id36, ⟨⟨['c']⟩⟩)]
  commit_mgr := fun _ => some ⟨['r']⟩
  fs_path_to_obj := fun _ _ => some (['o'], 16877)
  fs_file_id_by_path := fun _ _ => none
  fs_get_file := fun _ => none
  read_bytes := fun _ _ _ => 0
  fs_dir_entries := fun _ _ => some []
  client_pool := 0

/-- `stDir` with a different client pool, same external stores. -/
def stDir1 : SeafState := { stDir with client_pool := 1 }

/-! ## Helper lemmas about `strchr`, `take` and `drop` -/

/-- `strchr` returns an index inside the list. -/
theorem strchr_lt_length (l : List Char) (i : Nat) (h : strchr l = some i) :
    i < l.length := by
  induction l generalizing i with
  | nil => simp [strchr] at h
  | cons c rest ih =>
    by_cases hc : c = '/'
    · simp [strchr, hc] at h
      simp [List.length_cons]
      omega
    · simp [strchr, hc] at h
      obtain ⟨j, hj, rfl⟩ := h
      have := ih j hj
      simpa using Nat.succ_lt_succ this

/-- When `'/'` does not occur, `strchr` finds nothing. -/
theorem strchr_eq_none (l : List Char) (h : '/' ∉ l) : strchr l = none := by
  induction l with
  | nil => rfl
  | cons c rest ih =>
    have hc : ¬ c = '/' := fun he => h (by simp [he])
    have hr : '/' ∉ rest := fun hm => h (by simp [hm])
    simp [strchr, hc, ih hr]

/-- The first `'/'` after a slash-free block is found at its length. -/
theorem strchr_append (l r : List Char) (h : '/' ∉ l) :
    strchr (l ++ '/' :: r) = some l.length := by
  induction l with
  | nil => simp [strchr]
  | cons c rest ih =>
    have hc : ¬ c = '/' := fun he => h (by simp [he])
    have hr : '/' ∉ rest := fun hm => h (by simp [hm])
    simp [strchr, hc, ih hr]

/-- Taking the length of the left block of an append returns that block. -/
theorem take_len_append (l r : List Char) : (l ++ r).take l.length = l := by
  induction l with
  | nil => rfl
  | cons c rest ih => simp [ih]

/-- Dropping past the separator after a block leaves the remainder. -/
theorem drop_len_append (l r : List Char) :
    (l ++ '/' :: r).drop (l.length + 1) = r := by
  induction l with
  | nil => rfl
  | cons c rest ih => simp [ih]

/-- A list that does not start with `'/'` is left alone by `stripLead`. -/
theorem stripLead_of_head_ne (l : List Char) (h : l.head? ≠ some '/') :
    stripLead l = l := by
  simp [stripLead, h]

/-- `stripLead` removes exactly the one leading separator. -/
theorem stripLead_cons (l : List Char) : stripLead ('/' :: l) = l := by
  simp [stripLead]

/-! ## Path resolver claims -/

/-- C3 (counterexample to the claim as stated): the virtual path consisting
of 36 `'a'`s is shorter than 37 characters after stripping a leading
separator, yet `parse_fuse_path` succeeds on it instead of failing. -/
theorem parse_len36_succeeds :
    (stripLead id36).length < 37 ∧ parse_fuse_path id36 ≠ none := by
  decide

/-- C3 (amended): for every virtual path shorter than 36 characters after
stripping a leading separator, path resolution fails with a parse error. -/
theorem parse_short_fails (path : List Char)
    (h : (stripLead path).length < 36) : parse_fuse_path path = none := by
  unfold parse_fuse_path
  cases hstr : strchr (stripLead path) with
  | none => simp [hstr, h]
  | some i =>
    have hi := strchr_lt_length _ _ hstr
    simp only [hstr]
    rw [if_pos (by omega)]

/-- C3 witness: the one-character path `"a"` is shorter than 36 after
stripping and fails to parse. -/
theorem parse_short_fails_witness :
    (stripLead ['a']).length < 36 ∧ parse_fuse_path ['a'] = none :=
  ⟨by decide, parse_short_fails ['a'] (by decide)⟩

/-- C4 (counterexample to the claim as stated): for the virtual path
`<36-char-id>/` (single trailing separator) resolution succeeds but the
in-repository path is the empty string, not `"/"`. -/
theorem parse_trailing_slash_empty :
    parse_fuse_path (id36 ++ ['/']) = some (id36, []) ∧
    some (id36, ([] : List Char)) ≠ some (id36, ['/']) := by
  decide

/-- C4 (amended): for every 36-character slash-free identifier, the virtual
paths `<id>` and `/<id>` resolve with in-repository path exactly `"/"`,
while `<id>/` and `/<id>/` resolve successfully with the same identifier
but with the empty string as in-repository path. -/
theorem parse_id_root_paths (id : List Char) (h36 : id.length = 36)
    (hns : '/' ∉ id) :
    parse_fuse_path id = some (id, ['/']) ∧
    parse_fuse_path ('/' :: id) = some (id, ['/']) ∧
    parse_fuse_path (id ++ ['/']) = some (id, []) ∧
    parse_fuse_path ('/' :: (id ++ ['/'])) = some (id, []) := by
  obtain ⟨a, t, rfl⟩ : ∃ a t, id = a :: t := by
    cases id with
    | nil => simp at h36
    | cons a t => exact ⟨a, t, rfl⟩
  have ha : a ≠ '/' := fun he => hns (by simp [he])
  have hstrip : stripLead (a :: t) = a :: t :=
    stripLead_of_head_ne _ (by simp [ha])
  have hstrip2 : stripLead ((a :: t) ++ ['/']) = (a :: t) ++ ['/'] :=
    stripLead_of_head_ne _ (by simp [ha])
  have htake : ((a :: t) ++ ['/']).take 36 = a :: t := by
    rw [← h36]; exact take_len_append _ _
  have htake1 : (a :: t).take 36 = a :: t := by
    rw [← h36, List.take_length]
  refine ⟨?_, ?_, ?_, ?_⟩
  · simp only [parse_fuse_path]
    rw [hstrip, strchr_eq_none _ hns]
    simp [h36, htake1]
  · simp only [parse_fuse_path]
    rw [stripLead_cons, strchr_eq_none _ hns]
    simp [h36, htake1]
  · simp only [parse_fuse_path]
    rw [hstrip2]
    have : strchr ((a :: t) ++ '/' :: []) = some (a :: t).length :=
      strchr_append _ _ hns
    rw [this, h36]
    simp only [htake]
    rw [if_neg (by omega)]
    have hdrop : ((a :: t) ++ '/' :: []).drop ((a :: t).length + 1) = [] :=
      drop_len_append _ _
    rw [h36] at hdrop
    rw [hdrop]
  · simp only [parse_fuse_path]
    rw [stripLead_cons]
    have : strchr ((a :: t) ++ '/' :: []) = some (a :: t).length :=
      strchr_append _ _ hns
    rw [this, h36]
    simp only [htake]
    rw [if_neg (by omega)]
    have hdrop : ((a :: t) ++ '/' :: []).drop ((a :: t).length + 1) = [] :=
      drop_len_append _ _
    rw [h36] at hdrop
    rw [hdrop]

/-- C4 witness: the amended statement evaluated at the identifier of 36
`'a'`s. -/
theorem parse_id_root_paths_witness :
    id36.length = 36 ∧ '/' ∉ id36 ∧
    parse_fuse_path id36 = some (id36, ['/']) ∧
    parse_fuse_path ('/' :: id36) = some (id36, ['/']) ∧
    parse_fuse_path (id36 ++ ['/']) = some (id36, []) ∧
    parse_fuse_path ('/' :: (id36 ++ ['/'])) = some (id36, []) := by
  refine ⟨by decide, by decide, ?_⟩
  have h := parse_id_root_paths id36 (by decide) (by decide)
  exact ⟨h.1, h.2.1, h.2.2.1, h.2.2.2⟩

/-- C5: for every virtual path `<36-char-id>/<rest>` with slash-free
36-character identifier and non-empty `<rest>` (with or without the leading
separator the kernel always supplies), resolution succeeds, the repository
identifier is the 36-character token, and the in-repository path is
`<rest>` verbatim, embedded separators included. -/
theorem parse_id_rest_verbatim (id rest : List Char) (h36 : id.length = 36)
    (hns : '/' ∉ id) (_hne : rest ≠ []) :
    parse_fuse_path (id ++ '/' :: rest) = some (id, rest) ∧
    parse_fuse_path ('/' :: (id ++ '/' :: rest)) = some (id, rest) := by
  obtain ⟨a, t, rfl⟩ : ∃ a t, id = a :: t := by
    cases id with
    | nil => simp at h36
    | cons a t => exact ⟨a, t, rfl⟩
  have ha : a ≠ '/' := fun he => hns (by simp [he])
  have hstrip : stripLead ((a :: t) ++ '/' :: rest) = (a :: t) ++ '/' :: rest :=
    stripLead_of_head_ne _ (by simp [ha])
  have hchr : strchr ((a :: t) ++ '/' :: rest) = some (a :: t).length :=
    strchr_append _ _ hns
  have htake : ((a :: t) ++ '/' :: rest).take 36 = a :: t := by
    rw [← h36]
    have : ((a :: t) ++ '/' :: rest).take (a :: t).length = a :: t :=
      take_len_append _ _
    exact this
  have hdrop : ((a :: t) ++ '/' :: rest).drop ((a :: t).length + 1) = rest :=
    drop_len_append _ _
  constructor
  · simp only [parse_fuse_path]
    rw [hstrip, hchr, h36]
    simp only [htake]
    rw [if_neg (by omega)]
    rw [h36] at hdrop
    rw [hdrop]
  · simp only [parse_fuse_path]
    rw [stripLead_cons, hchr, h36]
    simp only [htake]
    rw [if_neg (by omega)]
    rw [h36] at hdrop
    rw [hdrop]

/-- C5 witness: `/<36 a's>/docs/r.txt` resolves to the 36-char token and the
verbatim remainder `docs/r.txt`. -/
theorem parse_id_rest_verbatim_witness :
    id36.length = 36 ∧ '/' ∉ id36 ∧ "docs/r.txt".toList ≠ [] ∧
    parse_fuse_path (id36 ++ '/' :: "docs/r.txt".toList) =
      some (id36, "docs/r.txt".toList) ∧
    parse_fuse_path ('/' :: (id36 ++ '/' :: "docs/r.txt".toList)) =
      some (id36, "docs/r.txt".toList) := by
  refine ⟨by decide, by decide, by decide, ?_⟩
  exact parse_id_rest_verbatim id36 "docs/r.txt".toList (by decide) (by decide)
    (by decide)

/-- C10: the resolver strips at most one leading separator — a path not
beginning with `'/'` resolves exactly as its `'/'`-prefixed form — and
consequently every path beginning with two separators fails with a parse
error (after stripping one, the first component is empty). -/
theorem parse_leading_sep (s t : List Char) (h : s.head? ≠ some '/') :
    parse_fuse_path s = parse_fuse_path ('/' :: s) ∧
    parse_fuse_path ('/' :: '/' :: t) = none := by
  constructor
  · simp only [parse_fuse_path]
    rw [stripLead_of_head_ne _ h, stripLead_cons]
  · simp only [parse_fuse_path]
    rw [stripLead_cons]
    simp [strchr]

/-- C10 witness: `"a"` and `"/a"` parse identically, and `"//"` fails. -/
theorem parse_leading_sep_witness :
    (['a'] : List Char).head? ≠ some '/' ∧
    parse_fuse_path ['a'] = parse_fuse_path ('/' :: ['a']) ∧
    parse_fuse_path ('/' :: '/' :: []) = none :=
  ⟨by decide, parse_leading_sep ['a'] [] (by decide)⟩

/-! ## VFS adapter claims -/

/-- C2: for every state, path and file-info whose masked low access-mode
bits (`flags & 3`) differ from `O_RDONLY`, both `open` and `read` return
`-EACCES`, before any other processing. -/
theorem open_read_reject_nonreadonly (s : SeafState) (path : List Char)
    (size : Nat) (offset : Int) (info : FileInfo)
    (h : info.flags &&& 3 ≠ O_RDONLY) :
    (seaf_fuse_open s path info).ret = -EACCES ∧
    (seaf_fuse_read s path size offset info).ret = -EACCES := by
  constructor
  · show (open_core s path info).1 = -EACCES
    unfold open_core
    rw [if_pos h]
  · unfold seaf_fuse_read
    rw [if_pos h]

/-- C2 witness: `open`/`read` with flags 1 (O_WRONLY) on a path are denied. -/
theorem open_read_reject_nonreadonly_witness :
    (⟨1, 0⟩ : FileInfo).flags &&& 3 ≠ O_RDONLY ∧
    (seaf_fuse_open stDir ('/' :: id36) ⟨1, 0⟩).ret = -EACCES ∧
    (seaf_fuse_read stDir ('/' :: id36) 4 0 ⟨1, 0⟩).ret = -EACCES :=
  ⟨by decide, open_read_reject_nonreadonly stDir ('/' :: id36) 4 0 ⟨1, 0⟩
    (by decide)⟩

/-- C6: in a read-only `open` call, each failing pipeline stage (path parse
error, repository absent, head commit not fetchable, path absent in the
tree) yields `-ENOENT`; a path that resolves to a non-regular-file object
yields `-EACCES`; and a path resolving to a regular file yields success. -/
theorem seaf_fuse_open_pipeline (s : SeafState) (path : List Char)
    (info : FileInfo) (hfl : info.flags &&& 3 = O_RDONLY) :
    (parse_fuse_path path = none →
      (seaf_fuse_open s path info).ret = -ENOENT) ∧
    (∀ rid rp, parse_fuse_path path = some (rid, rp) →
      seaf_repo_manager_get_repo s rid = none →
      (seaf_fuse_open s path info).ret = -ENOENT) ∧
    (∀ rid rp repo, parse_fuse_path path = some (rid, rp) →
      seaf_repo_manager_get_repo s rid = some repo →
      s.commit_mgr repo.head.commit_id = none →
      (seaf_fuse_open s path info).ret = -ENOENT) ∧
    (∀ rid rp repo commit, parse_fuse_path path = some (rid, rp) →
      seaf_repo_manager_get_repo s rid = some repo →
      s.commit_mgr repo.head.commit_id = some commit →
      s.fs_path_to_obj commit.root_id rp = none →
      (seaf_fuse_open s path info).ret = -ENOENT) ∧
    (∀ rid rp repo commit oid mode, parse_fuse_path path = some (rid, rp) →
      seaf_repo_manager_get_repo s rid = some repo →
      s.commit_mgr repo.head.commit_id = some commit →
      s.fs_path_to_obj commit.root_id rp = some (oid, mode) →
      S_ISREG mode = false →
      (seaf_fuse_open s path info).ret = -EACCES) ∧
    (∀ rid rp repo commit oid mode, parse_fuse_path path = some (rid, rp) →
      seaf_repo_manager_get_repo s rid = some repo →
      s.commit_mgr repo.head.commit_id = some commit →
      s.fs_path_to_obj commit.root_id rp = some (oid, mode) →
      S_ISREG mode = true →
      (seaf_fuse_open s path info).ret = 0) := by
  have hif : ¬ info.flags &&& 3 ≠ O_RDONLY := by simp [hfl]
  refine ⟨?_, ?_, ?_, ?_, ?_, ?_⟩
  · intro h1
    show (open_core s path info).1 = -ENOENT
    unfold open_core
    rw [if_neg hif, h1]
  · intro rid rp h1 h2
    show (open_core s path info).1 = -ENOENT
    unfold open_core
    rw [if_neg hif, h1]
    simp [h2]
  · intro rid rp repo h1 h2 h3
    show (open_core s path info).1 = -ENOENT
    unfold open_core
    rw [if_neg hif, h1]
    simp [h2, h3]
  · intro rid rp repo commit h1 h2 h3 h4
    show (open_core s path info).1 = -ENOENT
    unfold open_core
    rw [if_neg hif, h1]
    simp [h2, h3, h4]
  · intro rid rp repo commit oid mode h1 h2 h3 h4 h5
    show (open_core s path info).1 = -EACCES
    unfold open_core
    rw [if_neg hif, h1]
    simp [h2, h3, h4, h5]
  · intro rid rp repo commit oid mode h1 h2 h3 h4 h5
    show (open_core s path info).1 = 0
    unfold open_core
    rw [if_neg hif, h1]
    simp [h2, h3, h4, h5]

/-- C6 witness: a read-only `open` in the empty-registry state for the path
of 36 `'a'`s finds no repository and returns `-ENOENT`. -/
theorem seaf_fuse_open_pipeline_witness :
    (⟨0, 0⟩ : FileInfo).flags &&& 3 = O_RDONLY ∧
    parse_fuse_path id36 = some (id36, ['/']) ∧
    seaf_repo_manager_get_repo stEmpty id36 = none ∧
    (seaf_fuse_open stEmpty id36 ⟨0, 0⟩).ret = -ENOENT :=
  ⟨by decide, by decide, by decide,
    (seaf_fuse_open_pipeline stEmpty id36 ⟨0, 0⟩ (by decide)).2.1 id36 ['/']
      (by decide) (by decide)⟩

/-- C1: the claim that every exit path of `open` releases the acquired
repository handle, commit handle and the two heap strings fails on the
code: evaluating `open` with read-only flags on a path that resolves to a
directory (mode 0o40755), the call returns `-EACCES` through the direct
`return` at seaf-fuse.c:125, having acquired the repository handle but
released neither it, nor the commit handle, nor the `repo_id`/`repo_path`
strings. -/
theorem seaf_fuse_open_leak :
    (seaf_fuse_open stDir ('/' :: id36) ⟨0, 0⟩).ret = -EACCES ∧
    Resource.repoHandle ∈ (seaf_fuse_open stDir ('/' :: id36) ⟨0, 0⟩).acquired ∧
    Resource.repoHandle ∉ (seaf_fuse_open stDir ('/' :: id36) ⟨0, 0⟩).released ∧
    Resource.commitHandle ∉ (seaf_fuse_open stDir ('/' :: id36) ⟨0, 0⟩).released ∧
    Resource.repoId ∉ (seaf_fuse_open stDir ('/' :: id36) ⟨0, 0⟩).released ∧
    Resource.repoPath ∉ (seaf_fuse_open stDir ('/' :: id36) ⟨0, 0⟩).released := by
  decide

/-- C7: `readdir` emits `.` and `..` first on every path, and on the mount
root the remaining entries are exactly one per repository in the registry,
named by its identifier, regardless of repository content. -/
theorem readdir_dots_then_root_listing (s : SeafState) (path : List Char) :
    (seaf_fuse_readdir s path).2.take 2 = [['.'], ['.', '.']] ∧
    (path = ['/'] →
      (seaf_fuse_readdir s path).2 =
        [['.'], ['.', '.']] ++ s.repos.map (fun e => e.1)) := by
  constructor
  · unfold seaf_fuse_readdir
    split <;> rfl
  · intro h
    subst h
    unfold seaf_fuse_readdir
    rw [if_pos rfl]
    rfl

/-- C7 witness: in the one-repository state, `readdir("/")` yields `.`,
`..`, then that repository's identifier. -/
theorem readdir_dots_then_root_listing_witness :
    (seaf_fuse_readdir stDir ['/']).2.take 2 = [['.'], ['.', '.']] ∧
    (seaf_fuse_readdir stDir ['/']).2 =
      [['.'], ['.', '.']] ++ stDir.repos.map (fun e => e.1) :=
  ⟨(readdir_dots_then_root_listing stDir ['/']).1,
    (readdir_dots_then_root_listing stDir ['/']).2 rfl⟩

/-- C8: determinism across repeated calls — `getattr` and `read` results
are functions of the external stores alone: two states whose registry,
commit store and object-store primitives coincide (whatever the rest of
the session looks like) give identical results for the same path, buffer
size, offset and file-info. -/
theorem getattr_read_deterministic (s1 s2 : SeafState) (path : List Char)
    (size : Nat) (offset : Int) (info : FileInfo) (h : storesEq s1 s2) :
    seaf_fuse_getattr s1 path = seaf_fuse_getattr s2 path ∧
    seaf_fuse_read s1 path size offset info =
      seaf_fuse_read s2 path size offset info := by
  obtain ⟨h1, h2, h3, h4, h5, h6, h7⟩ := h
  cases s1
  cases s2
  simp only at h1 h2 h3 h4 h5 h6 h7
  subst h1 h2 h3 h4 h5 h6 h7
  exact ⟨rfl, rfl⟩

/-- C8 witness: the two concrete states differing only in the client pool
have equal stores and give identical `getattr` and `read` results. -/
theorem getattr_read_deterministic_witness :
    storesEq stDir stDir1 ∧
    seaf_fuse_getattr stDir ('/' :: id36) =
      seaf_fuse_getattr stDir1 ('/' :: id36) ∧
    seaf_fuse_read stDir ('/' :: id36) 4 0 ⟨0, 0⟩ =
      seaf_fuse_read stDir1 ('/' :: id36) 4 0 ⟨0, 0⟩ :=
  ⟨⟨rfl, rfl, rfl, rfl, rfl, rfl, rfl⟩,
    getattr_read_deterministic stDir stDir1 ('/' :: id36) 4 0 ⟨0, 0⟩
      ⟨rfl, rfl, rfl, rfl, rfl, rfl, rfl⟩⟩

/-- C9: a successful or failing `open` creates no per-handle state: the
caller-supplied file-info structure comes back unmodified (no file-handle
field is written), and `read`'s entire result is independent of the `fh`
field — each read re-resolves the path from scratch through the pipeline. -/
theorem open_read_no_handle_state (s : SeafState) (path : List Char)
    (info : FileInfo) (size : Nat) (offset : Int) (fl fh1 fh2 : Nat) :
    (seaf_fuse_open s path info).info_out = info ∧
    seaf_fuse_read s path size offset ⟨fl, fh1⟩ =
      seaf_fuse_read s path size offset ⟨fl, fh2⟩ :=
  ⟨rfl, rfl⟩
